import Mathlib

/-!
Shallow embedding of the `python-dotslash` generator (`make_dotslash_file.py`)
and validator (`test.py`).

Python strings are modelled as `List Char` (`Str`); Python `str` operations
(`startswith`, `endswith`, `in`, `removeprefix`, `removesuffix`, `bytes.strip`)
are defined below with their Python semantics.  Network traffic is modelled by
an explicit oracle `Str → HttpResponse` mapping a URL to the response, and the
requests issued by `platform_descriptor` are returned as an explicit list so
that "no request was made" is expressible.  Python exceptions are modelled with
`Except`, with the dynamic data of each error message carried structurally.
-/

namespace DotSlash

/-- Python strings, modelled as lists of characters. -/
abbrev Str := List Char

/-- Embed a Lean string literal as a `Str`. -/
def lit (s : String) : Str := s.data

/-- Python `s.startswith(pre)`. -/
def startswith : Str → Str → Bool
  | _, [] => true
  | [], _ :: _ => false
  | c :: s, p :: ps => decide (c = p) && startswith s ps

/-- Python `s.endswith(suf)`. -/
def endswith (s suf : Str) : Bool := startswith s.reverse suf.reverse

/-- Python `needle in haystack` for strings (substring containment). -/
def pyIn (needle : Str) : Str → Bool
  | [] => needle.isEmpty
  | c :: t => startswith (c :: t) needle || pyIn needle t

/-- Python `s.removeprefix(pre)`. -/
def removePrefixStr (s pre : Str) : Str :=
  if startswith s pre then s.drop pre.length else s

/-- Python `s.removesuffix(suf)`. -/
def removeSuffixStr (s suf : Str) : Str :=
  if endswith s suf then s.take (s.length - suf.length) else s

/-- The whitespace bytes stripped by Python `bytes.strip()`. -/
def isPySpace (c : Char) : Bool :=
  decide (c = ' ') || decide (c = '\t') || decide (c = '\n') ||
  decide (c = '\r') || decide (c = '\x0b') || decide (c = '\x0c')

/-- Python `b.strip()` on the digest body (strip whitespace at both ends). -/
def pyStrip (s : Str) : Str :=
  ((s.dropWhile isPySpace).reverse.dropWhile isPySpace).reverse

/-- Python string comparison (lexicographic by code point), as used by
`sort_keys=True`. -/
def leStr : Str → Str → Bool
  | [], _ => true
  | _ :: _, [] => false
  | a :: s, b :: t => if a < b then true else if b < a then false else leStr s t

/-- JSON documents as built by the generator (only the shapes the program
produces: strings, non-negative integers, arrays, objects). -/
inductive Json where
  | str (s : Str)
  | num (n : Nat)
  | arr (xs : List Json)
  | obj (kvs : List (Str × Json))

/-- `github` release asset record (the fields read from the API response). -/
structure Asset where
  name : Str
  browser_download_url : Str
  state : Str
  size : Nat
deriving DecidableEq

/-- `github` release record. -/
structure Release where
  name : Str
  tag_name : Str
  draft : Bool
  prerelease : Bool
  assets : List Asset
deriving DecidableEq

/-- Static per-platform configuration. -/
structure PlatformConfig where
  marker : Str
  flavor : Str
  path : Str
deriving DecidableEq

/-- A platform key: identifier plus free-threading flag. -/
structure Platform where
  name : Str
  free_threaded : Bool
deriving DecidableEq

/-- The `PLATFORMS` table, in source (insertion) order. -/
def PLATFORMS : List (Platform × PlatformConfig) := [
  (⟨lit "linux-aarch64", false⟩,
   ⟨lit "aarch64-unknown-linux-gnu", lit "install_only_stripped", lit "python/bin/python"⟩),
  (⟨lit "linux-aarch64", true⟩,
   ⟨lit "aarch64-unknown-linux-gnu", lit "freethreaded+lto-full", lit "python/install/bin/python"⟩),
  (⟨lit "linux-x86_64", false⟩,
   ⟨lit "x86_64_v3-unknown-linux-gnu", lit "install_only_stripped", lit "python/bin/python"⟩),
  (⟨lit "linux-x86_64", true⟩,
   ⟨lit "x86_64_v3-unknown-linux-gnu", lit "freethreaded+pgo+lto-full", lit "python/install/bin/python"⟩),
  (⟨lit "macos-aarch64", false⟩,
   ⟨lit "aarch64-apple-darwin", lit "install_only_stripped", lit "python/bin/python"⟩),
  (⟨lit "macos-aarch64", true⟩,
   ⟨lit "aarch64-apple-darwin", lit "freethreaded+pgo+lto-full", lit "python/install/bin/python"⟩),
  (⟨lit "macos-x86_64", false⟩,
   ⟨lit "x86_64-apple-darwin", lit "install_only_stripped", lit "python/bin/python"⟩),
  (⟨lit "macos-x86_64", true⟩,
   ⟨lit "x86_64-apple-darwin", lit "freethreaded+pgo+lto-full", lit "python/install/bin/python"⟩),
  (⟨lit "windows-x86_64", false⟩,
   ⟨lit "x86_64-pc-windows-msvc-shared", lit "install_only_stripped", lit "python/python.exe"⟩),
  (⟨lit "windows-x86_64", true⟩,
   ⟨lit "x86_64-pc-windows-msvc-shared", lit "freethreaded+pgo-full", lit "python/install/python.exe"⟩)
]

/-- Python `PLATFORMS[platform]` as a partial lookup (a missing key would
raise `KeyError`). -/
def lookupPlatform (p : Platform) : Option PlatformConfig :=
  (PLATFORMS.find? (fun e => decide (e.1 = p))).map (·.2)

/-- The errors raised by the generator, carrying the dynamic data that each
Python error message interpolates. -/
inductive Err where
  | keyError (p : Platform)
  | ambiguous (cfg : PlatformConfig) (version : Str) (p : Platform) (candidates : List Str)
  | noMatch (version : Str) (p : Platform) (releaseName : Str)
  | unsupported (p : Platform) (url : Str)
  | digestFetchFailed (url : Str)
deriving DecidableEq

/-- Whether a modelled computation succeeded (no exception was raised). -/
def isOkE {α : Type} : Except Err α → Bool
  | .ok _ => true
  | .error _ => false

/-- The per-asset test applied inside the loop of `find_asset_for_platform`,
as a function of the asset name only. -/
def nameMatches (version : Str) (cfg : PlatformConfig) (n : Str) : Bool :=
  startswith n (lit "cpython-" ++ version ++ lit ".") &&
  !endswith n (lit ".sha256") &&
  pyIn cfg.marker n && pyIn cfg.flavor n

/-- The per-asset test applied inside the loop of `find_asset_for_platform`. -/
def matchesFilter (version : Str) (cfg : PlatformConfig) (a : Asset) : Bool :=
  nameMatches version cfg a.name

/-- `find_asset_for_platform` from `make_dotslash_file.py`. -/
def find_asset_for_platform (release : Release) (version : Str) (platform : Platform) :
    Except Err Asset :=
  match lookupPlatform platform with
  | none => .error (.keyError platform)
  | some platform_cfg =>
    let ret := release.assets.filter (matchesFilter version platform_cfg)
    if ret.length > 1 then
      .error (.ambiguous platform_cfg version platform (ret.map (·.name)))
    else
      match ret with
      | [] => .error (.noMatch version platform release.name)
      | a :: _ => .ok a

/-- `ALLOWED_EXTENSIONS` from `make_dotslash_file.py`. -/
def ALLOWED_EXTENSIONS : List Str := [lit "tar.gz", lit "tar.zst"]

/-- The extension-detection loop of `platform_descriptor` (the last matching
extension wins, `None` if no extension matches). -/
def findExtension (url : Str) : Option Str :=
  ALLOWED_EXTENSIONS.foldl (fun acc ext => if endswith url ext then some ext else acc) none

/-- An HTTP response as seen by the generator: a status and a body. -/
structure HttpResponse where
  status : Nat
  body : Str

/-- `platform_descriptor` from `make_dotslash_file.py`.  `fetch` is the network
oracle; the first component of the result is the list of URLs requested, the
second the returned descriptor or the raised error. -/
def platform_descriptor (fetch : Str → HttpResponse) (platform : Platform) (asset : Asset) :
    List Str × Except Err Json :=
  match findExtension asset.browser_download_url with
  | none => ([], .error (.unsupported platform asset.browser_download_url))
  | some extension =>
    let url := asset.browser_download_url ++ lit ".sha256"
    let resp := fetch url
    if resp.status ≠ 200 then
      ([url], .error (.digestFetchFailed asset.browser_download_url))
    else
      let digest := pyStrip resp.body
      match lookupPlatform platform with
      | none => ([url], .error (.keyError platform))
      | some cfg =>
        ([url], .ok (.obj [
          (lit "size", .num asset.size),
          (lit "hash", .str (lit "sha256")),
          (lit "digest", .str digest),
          (lit "format", .str extension),
          (lit "path", .str cfg.path),
          (lit "providers", .arr [.obj [(lit "url", .str asset.browser_download_url)]]),
          (lit "arg0", .str (lit "underlying-executable"))
        ]))

/-- The platform keys iterated by `main`'s dict comprehension: `PLATFORMS.keys()`
filtered by the free-threaded flag, in insertion order. -/
def requestedPlatforms (ft : Bool) : List Platform :=
  (PLATFORMS.map (·.1)).filter (fun p => p.free_threaded == ft)

/-- The body of `main`'s dict comprehension: one `(platform.name, descriptor)`
entry per platform, left to right, propagating the first raised error. -/
def buildEntries (fetch : Str → HttpResponse) (rel : Release) (version : Str) :
    List Platform → Except Err (List (Str × Json))
  | [] => .ok []
  | p :: ps =>
    match find_asset_for_platform rel version p with
    | .error e => .error e
    | .ok asset =>
      match (platform_descriptor fetch p asset).2 with
      | .error e => .error e
      | .ok j =>
        match buildEntries fetch rel version ps with
        | .error e => .error e
        | .ok rest => .ok ((p.name, j) :: rest)

/-- The `descriptor` document built by `main` (before serialization). -/
def mainDescriptor (fetch : Str → HttpResponse) (rel : Release) (version : Str) (ft : Bool) :
    Except Err Json :=
  (buildEntries fetch rel version (requestedPlatforms ft)).map (fun entries =>
    .obj [(lit "name", .str (lit "cpython-" ++ version)),
          (lit "platforms", .obj entries)])

/-- Key lookup in a JSON object entry list (first occurrence). -/
def lookupPairs : List (Str × Json) → Str → Option Json
  | [], _ => none
  | (k, v) :: rest, key => if k = key then some v else lookupPairs rest key

/-- Key lookup on a JSON document (objects only). -/
def objLookup (j : Json) (key : Str) : Option Json :=
  match j with
  | .obj kvs => lookupPairs kvs key
  | _ => none

/-- Comparison of two object entries by key, for `sort_keys=True`. -/
def keyLe (x y : Str × Json) : Bool := leStr x.1 y.1

/-- Insertion step of the stable sort of object entries by key. -/
def insertPair (x : Str × Json) : List (Str × Json) → List (Str × Json)
  | [] => [x]
  | y :: ys => if keyLe x y then x :: y :: ys else y :: insertPair x ys

/-- Stable sort of object entries by key (the effect of `sort_keys=True`). -/
def sortPairs : List (Str × Json) → List (Str × Json)
  | [] => []
  | x :: xs => insertPair x (sortPairs xs)

/-- Adjacent-sortedness by key of an object entry list. -/
def chainKeys : List (Str × Json) → Bool
  | [] => true
  | [_] => true
  | x :: y :: r => keyLe x y && chainKeys (y :: r)

/-- Key-order relation between an entry and the head of an entry list. -/
def headLe (x : Str × Json) : List (Str × Json) → Bool
  | [] => true
  | y :: _ => keyLe x y

mutual
/-- Recursively sort every object's entries by key: the document actually
serialized by `json.dumps(..., sort_keys=True)`. -/
def canonJson : Json → Json
  | .str s => .str s
  | .num n => .num n
  | .arr xs => .arr (canonList xs)
  | .obj kvs => .obj (sortPairs (canonPairs kvs))

/-- `canonJson` mapped over an array's elements. -/
def canonList : List Json → List Json
  | [] => []
  | x :: xs => canonJson x :: canonList xs

/-- `canonJson` mapped over an object's values. -/
def canonPairs : List (Str × Json) → List (Str × Json)
  | [] => []
  | (k, v) :: rest => (k, canonJson v) :: canonPairs rest
end

/-- `n` spaces, for `indent=2` pretty-printing. -/
def spaces (n : Nat) : Str := List.replicate n ' '

/-- Lower-case hexadecimal digit. -/
def hexDigit (n : Nat) : Char :=
  if n < 10 then Char.ofNat ('0'.toNat + n) else Char.ofNat ('a'.toNat + n - 10)

/-- A `\uXXXX` escape for a code unit. -/
def uEscape4 (n : Nat) : Str :=
  ['\\', 'u', hexDigit (n / 4096 % 16), hexDigit (n / 256 % 16),
   hexDigit (n / 16 % 16), hexDigit (n % 16)]

/-- JSON string escaping as done by `json.dumps` with `ensure_ascii=True`. -/
def escapeChar (c : Char) : Str :=
  if c = '"' then ['\\', '"']
  else if c = '\\' then ['\\', '\\']
  else if c = '\n' then ['\\', 'n']
  else if c = '\t' then ['\\', 't']
  else if c = '\r' then ['\\', 'r']
  else if c = '\x08' then ['\\', 'b']
  else if c = '\x0c' then ['\\', 'f']
  else if c.toNat < 0x20 || c.toNat ≥ 0x7f then
    if c.toNat ≥ 0x10000 then
      uEscape4 (0xd800 + (c.toNat - 0x10000) / 0x400) ++
      uEscape4 (0xdc00 + (c.toNat - 0x10000) % 0x400)
    else uEscape4 c.toNat
  else [c]

/-- Escape a whole string body. -/
def escapeStr : Str → Str
  | [] => []
  | c :: rest => escapeChar c ++ escapeStr rest

/-- A quoted, escaped JSON string literal. -/
def jsonQuote (s : Str) : Str := '"' :: (escapeStr s ++ ['"'])

mutual
/-- Serialization of a (key-canonicalized) document as `json.dumps` with
`indent=2` does it: item separator `",\n"`, key separator `": "`, each item on
its own line indented two spaces per level, empty containers inline. -/
def serializeJson (level : Nat) : Json → Str
  | .str s => jsonQuote s
  | .num n => lit (toString n)
  | .arr [] => lit "[]"
  | .arr (x :: xs) =>
      lit "[\n" ++ serializeArrItems level (x :: xs) ++ lit "\n" ++
      spaces (2 * level) ++ lit "]"
  | .obj [] => lit "\x7b\x7d"
  | .obj (kv :: kvs) =>
      lit "\x7b\n" ++ serializeObjItems level (kv :: kvs) ++ lit "\n" ++
      spaces (2 * level) ++ lit "\x7d"

/-- The comma-and-newline separated items of a non-empty array. -/
def serializeArrItems (level : Nat) : List Json → Str
  | [] => []
  | [x] => spaces (2 * (level + 1)) ++ serializeJson (level + 1) x
  | x :: y :: xs =>
      spaces (2 * (level + 1)) ++ serializeJson (level + 1) x ++ lit ",\n" ++
      serializeArrItems level (y :: xs)

/-- The comma-and-newline separated items of a non-empty object. -/
def serializeObjItems (level : Nat) : List (Str × Json) → Str
  | [] => []
  | [(k, v)] =>
      spaces (2 * (level + 1)) ++ jsonQuote k ++ lit ": " ++ serializeJson (level + 1) v
  | (k, v) :: kv :: rest =>
      spaces (2 * (level + 1)) ++ jsonQuote k ++ lit ": " ++ serializeJson (level + 1) v ++
      lit ",\n" ++ serializeObjItems level (kv :: rest)
end

/-- `json.dumps(j, indent=2, sort_keys=True)`. -/
def dumps (j : Json) : Str := serializeJson 0 (canonJson j)

/-- The full standard output of `main` on success: the shebang line, a blank
line, and the serialized descriptor (each `print` appends a newline). -/
def mainOutput (fetch : Str → HttpResponse) (rel : Release) (version : Str) (ft : Bool) :
    Except Err Str :=
  (mainDescriptor fetch rel version ft).map (fun d =>
    lit "#!/usr/bin/env dotslash\n" ++ lit "\n" ++ dumps d ++ lit "\n")

/-- The version/flavor validation logic of `check_path` in `test.py`, as a
function of the descriptor's declared name and the launcher's stdout: `true`
exactly when no assertion is raised. -/
def check_version_output (name stdout : Str) : Bool :=
  let version := removePrefixStr name (lit "cpython-")
  let free_threaded := endswith version (lit "t")
  let version := removeSuffixStr version (lit "t")
  startswith stdout version &&
    (pyIn (lit "free-threading build") stdout == free_threaded)

/-- The accumulation loop of `main` in `test.py`: `fails p = true` means
`check_path` raised on `p`.  Returns the failure flag and the list of paths
actually checked, in order. -/
def runChecks (fails : Str → Bool) : List Str → Bool × List Str
  | [] => (false, [])
  | p :: ps =>
    let failed := fails p
    let rest := runChecks fails ps
    (failed || rest.1, p :: rest.2)

/-- `main` of `test.py`: exit status and the list of paths checked, given
whether the `dotslash` launcher was found and which checks fail. -/
def validator_main (dotslash : Option Str) (fails : Str → Bool) (paths : List Str) :
    Int × List Str :=
  match dotslash with
  | none => (-1, [])
  | some _ =>
    let r := runChecks fails paths
    ((if r.1 then 1 else 0), r.2)

/-! ### Concrete inputs used by the witnesses -/

/-- A release asset named `n`, hosted at `https://e/n`. -/
def mkAsset (n : String) : Asset :=
  ⟨lit n, lit "https://e/" ++ lit n, lit "uploaded", 100⟩

/-- The same asset name at a different URL, size and publication state. -/
def mkAssetAlt (n : String) : Asset :=
  ⟨lit n, lit "https://other/" ++ lit n, lit "open", 7⟩

def cAsset1 : Asset := mkAsset "cpython-3.13.1-aarch64-unknown-linux-gnu-install_only_stripped.tar.gz"
def cAsset2 : Asset := mkAsset "cpython-3.13.1-x86_64_v3-unknown-linux-gnu-install_only_stripped.tar.gz"
def cAsset3 : Asset := mkAsset "cpython-3.13.1-aarch64-apple-darwin-install_only_stripped.tar.gz"
def cAsset4 : Asset := mkAsset "cpython-3.13.1-x86_64-apple-darwin-install_only_stripped.tar.gz"
def cAsset5 : Asset := mkAsset "cpython-3.13.1-x86_64-pc-windows-msvc-shared-install_only_stripped.tar.gz"

/-- A release with exactly one matching asset per non-free-threaded platform. -/
def cRelease : Release :=
  ⟨lit "rel", lit "20250101", false, false, [cAsset1, cAsset2, cAsset3, cAsset4, cAsset5]⟩

/-- The same asset names as `cRelease`, with every non-name field changed. -/
def cReleaseB : Release :=
  ⟨lit "other", lit "tag", true, true,
   [mkAssetAlt "cpython-3.13.1-aarch64-unknown-linux-gnu-install_only_stripped.tar.gz",
    mkAssetAlt "cpython-3.13.1-x86_64_v3-unknown-linux-gnu-install_only_stripped.tar.gz",
    mkAssetAlt "cpython-3.13.1-aarch64-apple-darwin-install_only_stripped.tar.gz",
    mkAssetAlt "cpython-3.13.1-x86_64-apple-darwin-install_only_stripped.tar.gz",
    mkAssetAlt "cpython-3.13.1-x86_64-pc-windows-msvc-shared-install_only_stripped.tar.gz"]⟩

/-- A release with two assets matching `linux-x86_64`. -/
def cReleaseDup : Release :=
  ⟨lit "rel2", lit "t2", false, false,
   [cAsset2, mkAsset "cpython-3.13.2-x86_64_v3-unknown-linux-gnu-install_only_stripped.tar.gz"]⟩

/-- The configuration of the non-free-threaded `linux-x86_64` platform. -/
def cCfgLX : PlatformConfig :=
  ⟨lit "x86_64_v3-unknown-linux-gnu", lit "install_only_stripped", lit "python/bin/python"⟩

/-- A digest endpoint answering 200 with body `"abc\n"` to every request. -/
def cFetch : Str → HttpResponse := fun _ => ⟨200, lit "abc\n"⟩

/-- The asset of the spec's end-to-end example, size 123. -/
def cAssetEx : Asset :=
  ⟨lit "cpython-3.13.1+20241016-x86_64_v3-unknown-linux-gnu-pgo+lto-full.tar.zst",
   lit "https://e/cpython-3.13.1+20241016-x86_64_v3-unknown-linux-gnu-pgo+lto-full.tar.zst",
   lit "uploaded", 123⟩

/-- A digest endpoint answering 200 with body `"abcdef0123...\n"`. -/
def cFetchEx : Str → HttpResponse := fun _ => ⟨200, lit "abcdef0123...\n"⟩

/-- The free-threaded `linux-x86_64` platform (the configured path of which is
`python/install/bin/python`, the path named by the spec's example). -/
def cPlatEx : Platform := ⟨lit "linux-x86_64", true⟩

/-- The six-field platform descriptor claimed by the spec's end-to-end example
(no `arg0` entry). -/
def claimedSixFields : Json :=
  .obj [
    (lit "size", .num 123),
    (lit "hash", .str (lit "sha256")),
    (lit "digest", .str (lit "abcdef0123...")),
    (lit "format", .str (lit "tar.zst")),
    (lit "path", .str (lit "python/install/bin/python")),
    (lit "providers", .arr [.obj [(lit "url", .str cAssetEx.browser_download_url)]])]

/-- The platform descriptor the code actually produces for the example. -/
def producedSevenFields : Json :=
  .obj [
    (lit "size", .num 123),
    (lit "hash", .str (lit "sha256")),
    (lit "digest", .str (lit "abcdef0123...")),
    (lit "format", .str (lit "tar.zst")),
    (lit "path", .str (lit "python/install/bin/python")),
    (lit "providers", .arr [.obj [(lit "url", .str cAssetEx.browser_download_url)]]),
    (lit "arg0", .str (lit "underlying-executable"))]

/-- An asset whose URL ends in no supported extension. -/
def cAssetZip : Asset :=
  ⟨lit "cpython-3.13.1-foo.zip", lit "https://e/cpython-3.13.1-foo.zip", lit "uploaded", 1⟩

/-- The platform descriptor produced for an asset of `cRelease` under `cFetch`. -/
def entryEx (a : Asset) (path : String) : Json :=
  .obj [
    (lit "size", .num 100),
    (lit "hash", .str (lit "sha256")),
    (lit "digest", .str (lit "abc")),
    (lit "format", .str (lit "tar.gz")),
    (lit "path", .str (lit path)),
    (lit "providers", .arr [.obj [(lit "url", .str a.browser_download_url)]]),
    (lit "arg0", .str (lit "underlying-executable"))]

/-- The full descriptor document `main` builds from `cRelease` under `cFetch`
for version `3.13`, non-free-threaded. -/
def cDoc : Json :=
  .obj [(lit "name", .str (lit "cpython-3.13")),
        (lit "platforms", .obj [
          (lit "linux-aarch64", entryEx cAsset1 "python/bin/python"),
          (lit "linux-x86_64", entryEx cAsset2 "python/bin/python"),
          (lit "macos-aarch64", entryEx cAsset3 "python/bin/python"),
          (lit "macos-x86_64", entryEx cAsset4 "python/bin/python"),
          (lit "windows-x86_64", entryEx cAsset5 "python/python.exe")])]

/-! ### Theorems -/

/-- C1: for a configured platform, if exactly one asset of the release passes
the name filter (version prefix, not a `.sha256` sidecar, contains marker and
flavor), `find_asset_for_platform` returns that asset. -/
theorem find_asset_unique_match (r : Release) (v : Str) (p : Platform)
    (cfg : PlatformConfig) (hcfg : lookupPlatform p = some cfg) (a : Asset)
    (h : r.assets.filter (matchesFilter v cfg) = [a]) :
    find_asset_for_platform r v p = .ok a := by
  simp [find_asset_for_platform, hcfg, h]

theorem find_asset_unique_match_witness :
    lookupPlatform ⟨lit "linux-x86_64", false⟩ = some cCfgLX ∧
    cRelease.assets.filter (matchesFilter (lit "3.13") cCfgLX) = [cAsset2] ∧
    find_asset_for_platform cRelease (lit "3.13") ⟨lit "linux-x86_64", false⟩ = .ok cAsset2 :=
  ⟨rfl, by decide,
   find_asset_unique_match cRelease (lit "3.13") ⟨lit "linux-x86_64", false⟩ cCfgLX rfl
     cAsset2 (by decide)⟩

/-- C2: for a configured platform, zero assets passing the filter makes
`find_asset_for_platform` fail with the no-match error, and two or more make
it fail with the ambiguous-match error carrying the names of all candidates. -/
theorem find_asset_zero_or_many (r : Release) (v : Str) (p : Platform)
    (cfg : PlatformConfig) (hcfg : lookupPlatform p = some cfg) :
    (r.assets.filter (matchesFilter v cfg) = [] →
      find_asset_for_platform r v p = .error (.noMatch v p r.name)) ∧
    (2 ≤ (r.assets.filter (matchesFilter v cfg)).length →
      find_asset_for_platform r v p =
        .error (.ambiguous cfg v p ((r.assets.filter (matchesFilter v cfg)).map (·.name)))) := by
  constructor
  · intro h
    simp [find_asset_for_platform, hcfg, h]
  · intro h
    have hgt : (r.assets.filter (matchesFilter v cfg)).length > 1 := h
    simp [find_asset_for_platform, hcfg, hgt]

theorem find_asset_zero_or_many_witness :
    (cRelease.assets.filter (matchesFilter (lit "3.12") cCfgLX) = [] ∧
      find_asset_for_platform cRelease (lit "3.12") ⟨lit "linux-x86_64", false⟩ =
        .error (.noMatch (lit "3.12") ⟨lit "linux-x86_64", false⟩ cRelease.name)) ∧
    (2 ≤ (cReleaseDup.assets.filter (matchesFilter (lit "3.13") cCfgLX)).length ∧
      find_asset_for_platform cReleaseDup (lit "3.13") ⟨lit "linux-x86_64", false⟩ =
        .error (.ambiguous cCfgLX (lit "3.13") ⟨lit "linux-x86_64", false⟩
          ((cReleaseDup.assets.filter (matchesFilter (lit "3.13") cCfgLX)).map (·.name)))) :=
  ⟨⟨by decide,
    (find_asset_zero_or_many cRelease (lit "3.12") ⟨lit "linux-x86_64", false⟩ cCfgLX rfl).1
      (by decide)⟩,
   ⟨by decide,
    (find_asset_zero_or_many cReleaseDup (lit "3.13") ⟨lit "linux-x86_64", false⟩ cCfgLX rfl).2
      (by decide)⟩⟩

/-- C5: for an asset whose download URL ends in neither `tar.gz` nor `tar.zst`,
`platform_descriptor` fails with the unsupported-format error and issues no
network request at all (in particular none to `<url>.sha256`). -/
theorem descriptor_unsupported_no_fetch (fetch : Str → HttpResponse) (p : Platform)
    (a : Asset) (h1 : endswith a.browser_download_url (lit "tar.gz") = false)
    (h2 : endswith a.browser_download_url (lit "tar.zst") = false) :
    platform_descriptor fetch p a = ([], .error (.unsupported p a.browser_download_url)) := by
  have hext : findExtension a.browser_download_url = none := by
    simp [findExtension, ALLOWED_EXTENSIONS, h1, h2]
  simp [platform_descriptor, hext]

theorem descriptor_unsupported_no_fetch_witness :
    endswith cAssetZip.browser_download_url (lit "tar.gz") = false ∧
    endswith cAssetZip.browser_download_url (lit "tar.zst") = false ∧
    platform_descriptor cFetch ⟨lit "linux-x86_64", false⟩ cAssetZip =
      ([], .error (.unsupported ⟨lit "linux-x86_64", false⟩ cAssetZip.browser_download_url)) :=
  ⟨by decide, by decide,
   descriptor_unsupported_no_fetch cFetch ⟨lit "linux-x86_64", false⟩ cAssetZip
     (by decide) (by decide)⟩

/-- C4: every platform descriptor that `platform_descriptor` successfully
returns carries, besides `size`, `hash`, `digest`, `format`, `path` and
`providers`, the fixed launch instruction `"arg0": "underlying-executable"`. -/
theorem descriptor_has_arg0 (fetch : Str → HttpResponse) (p : Platform) (a : Asset)
    (j : Json) (h : (platform_descriptor fetch p a).2 = .ok j) :
    ∃ kvs, j = .obj kvs ∧
      kvs.map Prod.fst = [lit "size", lit "hash", lit "digest", lit "format",
        lit "path", lit "providers", lit "arg0"] ∧
      lookupPairs kvs (lit "arg0") = some (.str (lit "underlying-executable")) := by
  unfold platform_descriptor at h
  cases hext : findExtension a.browser_download_url with
  | none => rw [hext] at h; exact absurd h (by simp)
  | some ext =>
    rw [hext] at h
    dsimp only at h
    split at h
    · exact absurd h (by simp)
    · cases hlp : lookupPlatform p with
      | none => rw [hlp] at h; exact absurd h (by simp)
      | some cfg =>
        rw [hlp] at h
        dsimp only at h
        have hj := (Except.ok.inj h).symm
        exact ⟨_, hj, rfl, rfl⟩

theorem descriptor_has_arg0_witness :
    (platform_descriptor cFetchEx cPlatEx cAssetEx).2 = .ok producedSevenFields ∧
    ∃ kvs, producedSevenFields = .obj kvs ∧
      kvs.map Prod.fst = [lit "size", lit "hash", lit "digest", lit "format",
        lit "path", lit "providers", lit "arg0"] ∧
      lookupPairs kvs (lit "arg0") = some (.str (lit "underlying-executable")) :=
  ⟨rfl, descriptor_has_arg0 cFetchEx cPlatEx cAssetEx producedSevenFields rfl⟩

/-- C3 counterexample: on the spec example's own input — the free-threaded
`linux-x86_64` configuration (whose configured path is the claimed
`python/install/bin/python`), the `cpython-3.13.1+20241016-...-pgo+lto-full.tar.zst`
asset of size 123 and a digest endpoint returning `abcdef0123...\n` — the code
does not return the claimed six-field object: it adds a seventh `arg0` field. -/
theorem example_descriptor_not_six_fields :
    (platform_descriptor cFetchEx cPlatEx cAssetEx).2 ≠ .ok claimedSixFields := by
  intro h
  have hp : (platform_descriptor cFetchEx cPlatEx cAssetEx).2 = .ok producedSevenFields := rfl
  have h2 : producedSevenFields = claimedSixFields := Except.ok.inj (hp.symm.trans h)
  have h3 := congrArg (fun j => match j with | Json.obj l => l.length | _ => 0) h2
  simp [producedSevenFields, claimedSixFields] at h3

/-- C3 amended: on the example input, `platform_descriptor` yields exactly the
claimed `size`/`hash`/`digest`/`format`/`path`/`providers` object (digest
trimmed of trailing whitespace) extended with the additional fixed entry
`"arg0": "underlying-executable"`, after one request to `<url>.sha256`. -/
theorem example_descriptor_exact :
    platform_descriptor cFetchEx cPlatEx cAssetEx =
      ([cAssetEx.browser_download_url ++ lit ".sha256"], .ok producedSevenFields) := rfl

theorem startswith_nil (s : Str) : startswith s [] = true := by
  cases s <;> rfl

theorem startswith_append (p v : Str) : startswith (p ++ v) p = true := by
  induction p with
  | nil => exact startswith_nil v
  | cons a p ih => simp [startswith, ih]

theorem removePrefixStr_append (p v : Str) : removePrefixStr (p ++ v) p = v := by
  simp [removePrefixStr, startswith_append, List.drop_left]

/-- C6: for a declared name `cpython-<V>`, `check_path`'s version logic strips
the `cpython-` prefix, reads a trailing `t` on `V` as the free-threaded flag
and strips it, and accepts a launcher stdout `S` exactly when `S` starts with
the stripped version and the presence of `free-threading build` in `S` equals
the flag. -/
theorem check_path_version_logic (V S : Str) :
    check_version_output (lit "cpython-" ++ V) S = true ↔
      (startswith S (removeSuffixStr V (lit "t")) = true ∧
       pyIn (lit "free-threading build") S = endswith V (lit "t")) := by
  unfold check_version_output
  rw [removePrefixStr_append]
  simp [Bool.and_eq_true, beq_iff_eq]

theorem runChecks_processed_and_flag (fails : Str → Bool) (paths : List Str) :
    (runChecks fails paths).2 = paths ∧ (runChecks fails paths).1 = paths.any fails := by
  induction paths with
  | nil => exact ⟨rfl, rfl⟩
  | cons p ps ih => simp [runChecks, ih.1, ih.2, List.any_cons]

/-- C7: the validator checks every input file regardless of earlier failures,
exits 0 exactly when every file passes, 1 exactly when some file fails, and -1
when the launcher cannot be found. -/
theorem validator_exit_codes (fails : Str → Bool) (paths : List Str) (l : Str) :
    (validator_main none fails paths).1 = -1 ∧
    (validator_main (some l) fails paths).2 = paths ∧
    ((validator_main (some l) fails paths).1 = 0 ↔ ∀ p ∈ paths, fails p = false) ∧
    ((validator_main (some l) fails paths).1 = 1 ↔ ∃ p ∈ paths, fails p = true) := by
  have h := runChecks_processed_and_flag fails paths
  have hexit : (validator_main (some l) fails paths).1 =
      if paths.any fails then 1 else 0 := by
    simp [validator_main, h.2]
  refine ⟨rfl, by simpa [validator_main] using h.1, ?_, ?_⟩
  · rw [hexit]
    cases hb : paths.any fails with
    | false =>
      have hall : ∀ p ∈ paths, fails p = false := by
        intro x hx
        by_contra hc
        exact (List.any_eq_false.mp hb x hx) (by revert hc; cases fails x <;> simp)
      exact iff_of_true rfl hall
    | true =>
      obtain ⟨x, hx, hfx⟩ := List.any_eq_true.mp hb
      refine iff_of_false (by decide) ?_
      intro hall
      rw [hall x hx] at hfx
      cases hfx
  · rw [hexit]
    cases hb : paths.any fails with
    | false =>
      refine iff_of_false (by decide) ?_
      rintro ⟨x, hx, hfx⟩
      exact (List.any_eq_false.mp hb x hx) hfx
    | true =>
      exact iff_of_true rfl (List.any_eq_true.mp hb)

theorem leStr_total (a : Str) : ∀ b : Str, leStr a b = true ∨ leStr b a = true := by
  induction a with
  | nil => intro b; left; cases b <;> rfl
  | cons x s ih =>
    intro b
    cases b with
    | nil => right; rfl
    | cons y t =>
      rcases lt_trichotomy x y with hxy | hxy | hxy
      · left; simp [leStr, hxy]
      · subst hxy
        rcases ih t with hl | hl
        · left; simp [leStr, lt_irrefl, hl]
        · right; simp [leStr, lt_irrefl, hl]
      · right; simp [leStr, hxy]

theorem chainKeys_cons (x : Str × Json) (l : List (Str × Json)) :
    chainKeys (x :: l) = (headLe x l && chainKeys l) := by
  cases l <;> simp [chainKeys, headLe]

theorem insertPair_chain (x : Str × Json) (l : List (Str × Json))
    (h : chainKeys l = true) : chainKeys (insertPair x l) = true := by
  induction l with
  | nil => rfl
  | cons y ys ih =>
    rw [chainKeys_cons, Bool.and_eq_true] at h
    cases hxy : keyLe x y with
    | true =>
      have hx : headLe x (y :: ys) = true := hxy
      have hy : chainKeys (y :: ys) = true := by
        rw [chainKeys_cons]; simp [h.1, h.2]
      simp [insertPair, hxy, chainKeys_cons, hx, hy]
    | false =>
      have hyx : keyLe y x = true := by
        rcases leStr_total x.1 y.1 with ht | ht
        · rw [show keyLe x y = leStr x.1 y.1 from rfl, ht] at hxy; cases hxy
        · exact ht
      have hch : chainKeys (insertPair x ys) = true := ih h.2
      have hhd : headLe y (insertPair x ys) = true := by
        cases ys with
        | nil => exact hyx
        | cons z zs =>
          cases hxz : keyLe x z with
          | true => simp [insertPair, hxz, headLe, hyx]
          | false =>
            have := h.1
            simp [insertPair, hxz, headLe] at this ⊢
            exact this
      simp [insertPair, hxy, chainKeys_cons, hhd, hch]

theorem sortPairs_chain (l : List (Str × Json)) : chainKeys (sortPairs l) = true := by
  induction l with
  | nil => rfl
  | cons x xs ih => exact insertPair_chain x (sortPairs xs) ih

theorem insertPair_perm (x : Str × Json) (l : List (Str × Json)) :
    List.Perm (insertPair x l) (x :: l) := by
  induction l with
  | nil => exact List.Perm.refl _
  | cons y ys ih =>
    cases hxy : keyLe x y with
    | true =>
      simp only [insertPair, hxy, if_true]
      exact List.Perm.refl _
    | false =>
      simp only [insertPair, hxy, Bool.false_eq_true, if_false]
      exact (ih.cons y).trans (List.Perm.swap x y ys)

theorem sortPairs_perm (l : List (Str × Json)) : List.Perm (sortPairs l) l := by
  induction l with
  | nil => exact List.Perm.refl _
  | cons x xs ih => exact (insertPair_perm x (sortPairs xs)).trans (ih.cons x)

/-- C8: on any fixed release, configuration and digest responses, `main`'s
output is the value of a function of those inputs (two runs are identical),
and on success it is exactly the fixed shebang header line, a blank line, and
the `indent=2, sort_keys=True` serialization of the descriptor document, whose
object entries the serializer emits in alphabetically sorted key order. -/
theorem main_output_deterministic (fetch : Str → HttpResponse) (rel : Release)
    (v : Str) (ft : Bool) (j : Json) (h : mainDescriptor fetch rel v ft = .ok j) :
    mainOutput fetch rel v ft =
      .ok (lit "#!/usr/bin/env dotslash\n" ++ lit "\n" ++ dumps j ++ lit "\n") ∧
    (∀ fetch₂ rel₂ v₂ ft₂, fetch₂ = fetch → rel₂ = rel → v₂ = v → ft₂ = ft →
      mainOutput fetch₂ rel₂ v₂ ft₂ = mainOutput fetch rel v ft) ∧
    (∀ kvs, chainKeys (sortPairs kvs) = true) := by
  refine ⟨by simp [mainOutput, h, Except.map], ?_, fun kvs => sortPairs_chain kvs⟩
  intro fetch₂ rel₂ v₂ ft₂ h1 h2 h3 h4
  subst h1; subst h2; subst h3; subst h4
  rfl

theorem main_output_deterministic_witness :
    mainDescriptor cFetch cRelease (lit "3.13") false = .ok cDoc ∧
    mainOutput cFetch cRelease (lit "3.13") false =
      .ok (lit "#!/usr/bin/env dotslash\n" ++ lit "\n" ++ dumps cDoc ++ lit "\n") :=
  ⟨rfl, (main_output_deterministic cFetch cRelease (lit "3.13") false cDoc rfl).1⟩

theorem buildEntries_keys (fetch : Str → HttpResponse) (rel : Release) (v : Str) :
    ∀ (ps : List Platform) (entries : List (Str × Json)),
      buildEntries fetch rel v ps = .ok entries →
      entries.map Prod.fst = ps.map Platform.name := by
  intro ps
  induction ps with
  | nil =>
    intro entries h
    injection h with h'
    rw [← h']
    rfl
  | cons p ps ih =>
    intro entries h
    unfold buildEntries at h
    cases hf : find_asset_for_platform rel v p with
    | error e => rw [hf] at h; exact absurd h (by simp)
    | ok asset =>
      rw [hf] at h
      dsimp only at h
      cases hpd : (platform_descriptor fetch p asset).2 with
      | error e => rw [hpd] at h; exact absurd h (by simp)
      | ok j =>
        rw [hpd] at h
        dsimp only at h
        cases hbe : buildEntries fetch rel v ps with
        | error e => rw [hbe] at h; exact absurd h (by simp)
        | ok rest =>
          rw [hbe] at h
          injection h with h'
          rw [← h']
          simp [ih rest hbe]

/-- C9: every descriptor document `main` builds has `"name"` equal to
`cpython-<version>` (also under key lookup, as a JSON parser would recover
it), and its `"platforms"` object has exactly one entry per requested
configured platform, its key list being exactly the requested platform
identifiers; sorting for emission only permutes that key list. -/
theorem emitted_document_round_trip (fetch : Str → HttpResponse) (rel : Release)
    (v : Str) (ft : Bool) (j : Json) (h : mainDescriptor fetch rel v ft = .ok j) :
    ∃ entries,
      j = .obj [(lit "name", .str (lit "cpython-" ++ v)),
                (lit "platforms", .obj entries)] ∧
      objLookup j (lit "name") = some (.str (lit "cpython-" ++ v)) ∧
      entries.map Prod.fst = (requestedPlatforms ft).map Platform.name ∧
      List.Perm ((sortPairs entries).map Prod.fst) (entries.map Prod.fst) ∧
      (∀ p ∈ requestedPlatforms ft, (entries.map Prod.fst).count p.name = 1) := by
  unfold mainDescriptor at h
  cases hbe : buildEntries fetch rel v (requestedPlatforms ft) with
  | error e => rw [hbe] at h; exact absurd h (by simp [Except.map])
  | ok entries =>
    rw [hbe] at h
    dsimp only [Except.map] at h
    have hj := (Except.ok.inj h).symm
    have hkeys := buildEntries_keys fetch rel v (requestedPlatforms ft) entries hbe
    refine ⟨entries, hj, ?_, hkeys, (sortPairs_perm entries).map Prod.fst, ?_⟩
    · rw [hj]; rfl
    · rw [hkeys]
      cases ft <;> decide

theorem emitted_document_round_trip_witness :
    mainDescriptor cFetch cRelease (lit "3.13") false = .ok cDoc ∧
    ∃ entries,
      cDoc = .obj [(lit "name", .str (lit "cpython-" ++ lit "3.13")),
                   (lit "platforms", .obj entries)] ∧
      objLookup cDoc (lit "name") = some (.str (lit "cpython-" ++ lit "3.13")) ∧
      entries.map Prod.fst = (requestedPlatforms false).map Platform.name ∧
      List.Perm ((sortPairs entries).map Prod.fst) (entries.map Prod.fst) ∧
      (∀ p ∈ requestedPlatforms false, (entries.map Prod.fst).count p.name = 1) :=
  ⟨rfl, emitted_document_round_trip cFetch cRelease (lit "3.13") false cDoc rfl⟩

theorem filter_map_name (v : Str) (cfg : PlatformConfig) :
    ∀ (l₁ l₂ : List Asset), l₁.map Asset.name = l₂.map Asset.name →
      (l₁.filter (matchesFilter v cfg)).map Asset.name =
        (l₂.filter (matchesFilter v cfg)).map Asset.name := by
  intro l₁
  induction l₁ with
  | nil =>
    intro l₂ h
    cases l₂ with
    | nil => rfl
    | cons b m => simp at h
  | cons a l ih =>
    intro l₂ h
    cases l₂ with
    | nil => simp at h
    | cons b m =>
      simp only [List.map_cons, List.cons.injEq] at h
      have hb : matchesFilter v cfg b = matchesFilter v cfg a := by
        simp [matchesFilter, h.1]
      simp only [List.filter_cons, hb]
      cases hma : matchesFilter v cfg a with
      | false => simpa [hma] using ih m h.2
      | true => simpa [hma, h.1] using ih m h.2

theorem findIdx_map_name (v : Str) (cfg : PlatformConfig) :
    ∀ (l₁ l₂ : List Asset), l₁.map Asset.name = l₂.map Asset.name →
      l₁.findIdx (matchesFilter v cfg) = l₂.findIdx (matchesFilter v cfg) := by
  intro l₁
  induction l₁ with
  | nil =>
    intro l₂ h
    cases l₂ with
    | nil => rfl
    | cons b m => simp at h
  | cons a l ih =>
    intro l₂ h
    cases l₂ with
    | nil => simp at h
    | cons b m =>
      simp only [List.map_cons, List.cons.injEq] at h
      have hb : matchesFilter v cfg b = matchesFilter v cfg a := by
        simp [matchesFilter, h.1]
      rw [List.findIdx_cons, List.findIdx_cons, hb, ih m h.2]

theorem filter_singleton_get (pred : Asset → Bool) :
    ∀ (l : List Asset) (a : Asset), l.filter pred = [a] →
      ∃ (i : Nat) (hlt : i < l.length), l.findIdx pred = i ∧ l.get ⟨i, hlt⟩ = a := by
  intro l
  induction l with
  | nil => intro a h; simp at h
  | cons x xs ih =>
    intro a h
    rw [List.filter_cons] at h
    cases hp : pred x with
    | true =>
      rw [hp, if_pos rfl] at h
      injection h with h1 h2
      exact ⟨0, Nat.succ_pos _, by simp [List.findIdx_cons, hp], h1⟩
    | false =>
      rw [hp, if_neg (by decide)] at h
      obtain ⟨i, hi, hidx, hget⟩ := ih a h
      exact ⟨i + 1, Nat.succ_lt_succ hi, by simp [List.findIdx_cons, hp, hidx], hget⟩

/-- C10: asset selection depends only on the asset names: on two releases with
pointwise equal asset-name lists it either succeeds on both with the asset at
the same position, or fails on both in the same way (same success flag, the
ambiguous error with the same candidate names, the no-match error, or the
missing-key error, on both sides alike) — so an asset's publication state,
size and download URL never influence selection. -/
theorem find_depends_only_on_names (r₁ r₂ : Release) (v : Str) (p : Platform)
    (h : r₁.assets.map Asset.name = r₂.assets.map Asset.name) :
    (isOkE (find_asset_for_platform r₁ v p) = isOkE (find_asset_for_platform r₂ v p)) ∧
    (∀ a₁, find_asset_for_platform r₁ v p = .ok a₁ →
      ∃ (i : Nat) (h₁ : i < r₁.assets.length) (h₂ : i < r₂.assets.length),
        r₁.assets.get ⟨i, h₁⟩ = a₁ ∧
        find_asset_for_platform r₂ v p = .ok (r₂.assets.get ⟨i, h₂⟩)) ∧
    (∀ cfg c, find_asset_for_platform r₁ v p = .error (.ambiguous cfg v p c) ↔
      find_asset_for_platform r₂ v p = .error (.ambiguous cfg v p c)) ∧
    (find_asset_for_platform r₁ v p = .error (.noMatch v p r₁.name) ↔
      find_asset_for_platform r₂ v p = .error (.noMatch v p r₂.name)) ∧
    (find_asset_for_platform r₁ v p = .error (.keyError p) ↔
      find_asset_for_platform r₂ v p = .error (.keyError p)) := by
  cases hcfg : lookupPlatform p with
  | none =>
    have e₁ : find_asset_for_platform r₁ v p = .error (.keyError p) := by
      simp [find_asset_for_platform, hcfg]
    have e₂ : find_asset_for_platform r₂ v p = .error (.keyError p) := by
      simp [find_asset_for_platform, hcfg]
    rw [e₁, e₂]
    refine ⟨rfl, ?_, ?_, ?_, Iff.rfl⟩
    · intro a₁ h'; exact absurd h' (by simp)
    · intro cfg c; exact iff_of_false (by simp) (by simp)
    · exact iff_of_false (by simp) (by simp)
  | some cfg₀ =>
    have hmap := filter_map_name v cfg₀ r₁.assets r₂.assets h
    have hfind : ∀ (r : Release), find_asset_for_platform r v p =
        (if (r.assets.filter (matchesFilter v cfg₀)).length > 1 then
          .error (.ambiguous cfg₀ v p ((r.assets.filter (matchesFilter v cfg₀)).map (·.name)))
        else
          match r.assets.filter (matchesFilter v cfg₀) with
          | [] => .error (.noMatch v p r.name)
          | a :: _ => .ok a) := by
      intro r
      simp [find_asset_for_platform, hcfg]
    rcases hf₁ : r₁.assets.filter (matchesFilter v cfg₀) with _ | ⟨x₁, t₁⟩
    · rcases hf₂ : r₂.assets.filter (matchesFilter v cfg₀) with _ | ⟨x₂, t₂⟩
      · have e₁ : find_asset_for_platform r₁ v p = .error (.noMatch v p r₁.name) := by
          rw [hfind r₁, hf₁]; simp
        have e₂ : find_asset_for_platform r₂ v p = .error (.noMatch v p r₂.name) := by
          rw [hfind r₂, hf₂]; simp
        rw [e₁, e₂]
        refine ⟨rfl, ?_, ?_, iff_of_true rfl rfl, ?_⟩
        · intro a₁ h'; exact absurd h' (by simp)
        · intro cfg c; exact iff_of_false (by simp) (by simp)
        · exact iff_of_false (by simp) (by simp)
      · rw [hf₁, hf₂] at hmap; simp at hmap
    · rcases hf₂ : r₂.assets.filter (matchesFilter v cfg₀) with _ | ⟨x₂, t₂⟩
      · rw [hf₁, hf₂] at hmap; simp at hmap
      · rcases t₁ with _ | ⟨y₁, u₁⟩
        · rcases t₂ with _ | ⟨y₂, u₂⟩
          · -- exactly one match on both sides
            have e₁ : find_asset_for_platform r₁ v p = .ok x₁ := by
              rw [hfind r₁, hf₁]; simp
            have e₂ : find_asset_for_platform r₂ v p = .ok x₂ := by
              rw [hfind r₂, hf₂]; simp
            obtain ⟨i₁, hi₁, hidx₁, hget₁⟩ :=
              filter_singleton_get (matchesFilter v cfg₀) r₁.assets x₁ hf₁
            obtain ⟨i₂, hi₂, hidx₂, hget₂⟩ :=
              filter_singleton_get (matchesFilter v cfg₀) r₂.assets x₂ hf₂
            have hieq : i₁ = i₂ := by
              rw [← hidx₁, ← hidx₂, findIdx_map_name v cfg₀ r₁.assets r₂.assets h]
            subst hieq
            refine ⟨by rw [e₁, e₂]; rfl, ?_, ?_, ?_, ?_⟩
            · intro a₁ h'
              have hax : a₁ = x₁ := (Except.ok.inj (e₁.symm.trans h')).symm
              subst hax
              exact ⟨i₁, hi₁, hi₂, hget₁, by rw [e₂, hget₂]⟩
            · intro cfg c
              exact iff_of_false (by rw [e₁]; simp) (by rw [e₂]; simp)
            · exact iff_of_false (by rw [e₁]; simp) (by rw [e₂]; simp)
            · exact iff_of_false (by rw [e₁]; simp) (by rw [e₂]; simp)
          · rw [hf₁, hf₂] at hmap; simp at hmap
        · rcases t₂ with _ | ⟨y₂, u₂⟩
          · rw [hf₁, hf₂] at hmap; simp at hmap
          · -- two or more matches on both sides
            have e₁ : find_asset_for_platform r₁ v p =
                .error (.ambiguous cfg₀ v p ((x₁ :: y₁ :: u₁).map (·.name))) := by
              rw [hfind r₁, hf₁,
                if_pos (by rw [List.length_cons, List.length_cons]; omega)]
            have e₂ : find_asset_for_platform r₂ v p =
                .error (.ambiguous cfg₀ v p ((x₂ :: y₂ :: u₂).map (·.name))) := by
              rw [hfind r₂, hf₂,
                if_pos (by rw [List.length_cons, List.length_cons]; omega)]
            have hL : (x₁ :: y₁ :: u₁).map (·.name) = (x₂ :: y₂ :: u₂).map (·.name) := by
              rw [hf₁, hf₂] at hmap; exact hmap
            rw [e₁, e₂, hL]
            refine ⟨rfl, ?_, fun cfg c => Iff.rfl, ?_, ?_⟩
            · intro a₁ h'; exact absurd h' (by simp)
            · exact iff_of_false (by simp) (by simp)
            · exact iff_of_false (by simp) (by simp)

theorem find_depends_only_on_names_witness :
    cRelease.assets.map Asset.name = cReleaseB.assets.map Asset.name ∧
    isOkE (find_asset_for_platform cRelease (lit "3.13") ⟨lit "linux-x86_64", false⟩) =
      isOkE (find_asset_for_platform cReleaseB (lit "3.13") ⟨lit "linux-x86_64", false⟩) :=
  ⟨rfl,
   (find_depends_only_on_names cRelease cReleaseB (lit "3.13")
     ⟨lit "linux-x86_64", false⟩ rfl).1⟩

end DotSlash
